import Mathlib

/-!
Verification development for the Delivery landing page
(`client/src/pages/Home.tsx`).

The logic of the page is a handful of pure helpers over a static business
configuration: a weekly opening-hours table consulted with the current
weekday and "HH:MM" local time, WhatsApp deep-link builders that
percent-encode a message body, and address formatters.  Each helper is
embedded below directly from the source; JavaScript string comparison
(`>=`, `<`) is modelled by lexicographic comparison on characters, and
`encodeURIComponent` by the standard percent-encoding of the UTF-8 bytes
of every character outside the unreserved set.
-/

namespace Delivery

/-- One row of `OPENING_HOURS`: `{ open: "HH:MM", close: "HH:MM" }`. -/
structure HoursEntry where
  «open» : String
  close : String
deriving DecidableEq, Repr

/-- Shape of `OPENING_HOURS`: a JavaScript object indexed by weekday
number; indexing a missing key yields `undefined`, i.e. `none`. -/
def WeeklySchedule : Type := Nat → Option HoursEntry

/-- Source constant `WHATSAPP_NUMBER = "5511999999999"`. -/
def WHATSAPP_NUMBER : String := "5511999999999"

/-- Source constant `OPENING_HOURS` from `Home.tsx`, one entry per weekday 0..6. -/
def OPENING_HOURS : WeeklySchedule := fun dayOfWeek =>
  match dayOfWeek with
  | 0 => some ⟨"11:00", "23:00"⟩
  | 1 => some ⟨"11:00", "23:30"⟩
  | 2 => some ⟨"11:00", "23:30"⟩
  | 3 => some ⟨"11:00", "23:30"⟩
  | 4 => some ⟨"11:00", "23:30"⟩
  | 5 => some ⟨"11:00", "00:30"⟩
  | 6 => some ⟨"11:00", "00:30"⟩
  | _ => none

/-- Shape of `RESTAURANT_ADDRESS` (the `lat` and `lng` map coordinates are
consumed only by the map widget and are not part of any string formatter). -/
structure Address where
  street : String
  neighborhood : String
  city : String
  state : String
  zipcode : String
deriving DecidableEq, Repr

/-- The concrete `RESTAURANT_ADDRESS` constant. -/
def RESTAURANT_ADDRESS : Address :=
  ⟨"Rua das Flores, 123", "Centro", "São Paulo", "SP", "01310-100"⟩

/-! ### `encodeURIComponent` -/

/-- Characters `encodeURIComponent` leaves unescaped: the letters `A-Z`
and `a-z`, the digits `0-9`, and hyphen, underscore, period, exclamation
mark, tilde, asterisk, apostrophe and parentheses. -/
def isUnreservedChar (c : Char) : Bool :=
  (65 ≤ c.toNat && c.toNat ≤ 90) || (97 ≤ c.toNat && c.toNat ≤ 122) ||
  (48 ≤ c.toNat && c.toNat ≤ 57) ||
  c.toNat = 45 || c.toNat = 95 || c.toNat = 46 || c.toNat = 33 ||
  c.toNat = 126 || c.toNat = 42 || c.toNat = 39 || c.toNat = 40 || c.toNat = 41

/-- Uppercase hexadecimal digit, as used by `encodeURIComponent`. -/
def hexDigitChar (n : Nat) : Char :=
  if n < 10 then Char.ofNat (48 + n) else Char.ofNat (55 + n)

/-- UTF-8 byte sequence of a Unicode scalar value. -/
def utf8Bytes (n : Nat) : List Nat :=
  if n < 0x80 then [n]
  else if n < 0x800 then
    [0xC0 + n / 0x40, 0x80 + n % 0x40]
  else if n < 0x10000 then
    [0xE0 + n / 0x1000, 0x80 + n / 0x40 % 0x40, 0x80 + n % 0x40]
  else
    [0xF0 + n / 0x40000, 0x80 + n / 0x1000 % 0x40, 0x80 + n / 0x40 % 0x40,
      0x80 + n % 0x40]

/-- Escape of one byte as `%XX` (`%` is code point 37). -/
def percentEncodeByte (b : Nat) : List Char :=
  [Char.ofNat 37, hexDigitChar (b / 16), hexDigitChar (b % 16)]

/-- Encoding of a single character: unreserved characters pass through,
every other character becomes the `%XX` escapes of its UTF-8 bytes. -/
def encodeChar (c : Char) : List Char :=
  if isUnreservedChar c then [c]
  else ((utf8Bytes c.toNat).map percentEncodeByte).flatten

/-- Model of the JavaScript function `encodeURIComponent`. -/
def encodeURIComponent (s : String) : String :=
  ⟨(s.data.map encodeChar).flatten⟩

/-! ### Percent-decoding (specification side)

The round-trip property the spec states for `getGoogleMapsUrl` speaks of
percent-decoding the encoded path segment.  The decoder below follows the
standard: a `%` escape contributes one byte from its two hexadecimal
digits, any other character contributes its own UTF-8 bytes, and the
resulting byte sequence is decoded as UTF-8. -/

/-- Value of a hexadecimal digit character (`0-9`, `A-F`, `a-f`). -/
def hexVal (c : Char) : Option Nat :=
  if 48 ≤ c.toNat && c.toNat ≤ 57 then some (c.toNat - 48)
  else if 65 ≤ c.toNat && c.toNat ≤ 70 then some (c.toNat - 55)
  else if 97 ≤ c.toNat && c.toNat ≤ 102 then some (c.toNat - 87)
  else none

/-- Byte layer of percent-decoding: `%XY` becomes the byte `16*X + Y`,
any other character contributes its UTF-8 bytes unchanged; a truncated or
malformed escape fails. -/
def percentDecodeBytes : List Char → Option (List Nat)
  | [] => some []
  | [c] =>
    if c.toNat = 37 then none
    else (percentDecodeBytes []).map (fun l => utf8Bytes c.toNat ++ l)
  | [c, c1] =>
    if c.toNat = 37 then none
    else (percentDecodeBytes [c1]).map (fun l => utf8Bytes c.toNat ++ l)
  | c :: c1 :: c2 :: rest =>
    if c.toNat = 37 then
      match hexVal c1, hexVal c2, percentDecodeBytes rest with
      | some h1, some h2, some bs => some ((h1 * 16 + h2) :: bs)
      | _, _, _ => none
    else (percentDecodeBytes (c1 :: c2 :: rest)).map (fun l => utf8Bytes c.toNat ++ l)

/-- UTF-8 decoding, one byte per step.  The first argument is the number of
continuation bytes still expected (`0`: at a character boundary), the
second the scalar value accumulated so far. -/
def utf8DecodeAux : Nat → Nat → List Nat → Option (List Char)
  | 0, _, [] => some []
  | _ + 1, _, [] => none
  | 0, _, b :: bs =>
    if b < 0x80 then (utf8DecodeAux 0 0 bs).map (fun cs => Char.ofNat b :: cs)
    else if b < 0xC0 then none
    else if b < 0xE0 then utf8DecodeAux 1 (b - 0xC0) bs
    else if b < 0xF0 then utf8DecodeAux 2 (b - 0xE0) bs
    else utf8DecodeAux 3 (b - 0xF0) bs
  | 1, v, b :: bs =>
    if 0x80 ≤ b ∧ b < 0xC0 then
      (utf8DecodeAux 0 0 bs).map (fun cs => Char.ofNat (v * 0x40 + (b - 0x80)) :: cs)
    else none
  | k + 2, v, b :: bs =>
    if 0x80 ≤ b ∧ b < 0xC0 then utf8DecodeAux (k + 1) (v * 0x40 + (b - 0x80)) bs
    else none

/-- UTF-8 decoding of a byte sequence into characters. -/
def utf8DecodeBytes (bs : List Nat) : Option (List Char) :=
  utf8DecodeAux 0 0 bs

/-- Percent-decoding of a string, the inverse direction of
`encodeURIComponent` used by the round-trip property of the spec. -/
def percentDecode (s : String) : Option String :=
  match percentDecodeBytes s.data with
  | some bs =>
    match utf8DecodeBytes bs with
    | some cs => some ⟨cs⟩
    | none => none
  | none => none

/-! ### JavaScript string comparison

JavaScript compares strings lexicographically, code unit by code unit;
`a >= b` is the negation of `a < b`.  `jsStrLtb` is that comparison on the
character lists underlying `String`. -/

/-- Lexicographic `<` on character lists, as JavaScript compares strings. -/
def jsStrLtb : List Char → List Char → Bool
  | _, [] => false
  | [], _ :: _ => true
  | a :: as, b :: bs =>
    if a < b then true
    else if b < a then false
    else jsStrLtb as bs

/-- JavaScript `a < b` on strings. -/
def jsLt (a b : String) : Bool := jsStrLtb a.data b.data

/-- JavaScript `a >= b` on strings: `¬ (a < b)`. -/
def jsGe (a b : String) : Bool := ! jsLt a b

/-! ### Source helpers -/

/-- Source function `createWhatsAppLink` from `Home.tsx`, with the
module-level `WHATSAPP_NUMBER` passed explicitly.  The conditional
`price ? ... : ...` tests JavaScript truthiness, so an empty string
behaves like an absent price. -/
def createWhatsAppLink (whatsappNumber product : String)
    (price : Option String) : String :=
  let message :=
    match price with
    | some p =>
      if p = "" then "Quero pedir: " ++ product
      else "Quero pedir: " ++ product ++ " (R$ " ++ p ++ ")"
    | none => "Quero pedir: " ++ product
  "https://wa.me/" ++ whatsappNumber ++ "?text=" ++ encodeURIComponent message

/-- Model of the JavaScript idiom `String(n).padStart(2, "0")`. -/
def padStart2 (s : String) : String :=
  ⟨List.replicate (2 - s.data.length) (Char.ofNat 48) ++ s.data⟩

/-- The `currentTime` string of `isRestaurantOpen`:
`` `${String(now.getHours()).padStart(2, "0")}:${String(now.getMinutes()).padStart(2, "0")}` ``. -/
def currentTimeString (h m : Nat) : String :=
  padStart2 (toString h) ++ ":" ++ padStart2 (toString m)

/-- Source function `isRestaurantOpen` from `Home.tsx`, with the schedule
and the clock-derived weekday, hour and minute passed explicitly. -/
def isRestaurantOpen (schedule : WeeklySchedule) (dayOfWeek h m : Nat) : Bool :=
  let currentTime := currentTimeString h m
  match schedule dayOfWeek with
  | none => false
  | some hours => jsGe currentTime hours.«open» && jsLt currentTime hours.close

/-- Source function `getTodayHours` from `Home.tsx`. -/
def getTodayHours (schedule : WeeklySchedule) (dayOfWeek : Nat) : String :=
  match schedule dayOfWeek with
  | some hours => hours.«open» ++ " - " ++ hours.close
  | none => "Fechado"

/-- Source function `getFullAddress` from `Home.tsx`. -/
def getFullAddress (addr : Address) : String :=
  addr.street ++ ", " ++ addr.neighborhood ++ ", " ++ addr.city ++ " - " ++ addr.state

/-- Source function `getGoogleMapsUrl` from `Home.tsx`. -/
def getGoogleMapsUrl (addr : Address) : String :=
  "https://www.google.com/maps/search/" ++ encodeURIComponent (getFullAddress addr)

/-- The URL constructed by `openWhatsAppDelivery` in `Home.tsx`
(dispatching it through `window.open` belongs to the host environment). -/
def openWhatsAppDeliveryUrl (whatsappNumber : String) (addr : Address) : String :=
  "https://wa.me/" ++ whatsappNumber ++ "?text=" ++
    encodeURIComponent ("Olá! Vocês fazem entrega no meu endereço? " ++ getFullAddress addr)

/-- Source function `getFormattedAddressLines` from `Home.tsx`. -/
def getFormattedAddressLines (addr : Address) : List String :=
  [addr.street,
   addr.neighborhood ++ ", " ++ addr.city ++ " - " ++ addr.state,
   addr.zipcode]

/-! ### Bridge lemmas: the JavaScript comparison booleans decide the
lexicographic order on `String`. -/

theorem jsStrLtb_iff (as bs : List Char) : jsStrLtb as bs = true ↔ as < bs := by
  induction as generalizing bs with
  | nil =>
    cases bs with
    | nil =>
      simp only [jsStrLtb, Bool.false_eq_true, false_iff]
      exact List.Lex.not_nil_right _ _
    | cons b bs =>
      simp only [jsStrLtb, true_iff]
      exact List.Lex.nil
  | cons a as ih =>
    cases bs with
    | nil =>
      simp only [jsStrLtb, Bool.false_eq_true, false_iff]
      exact List.Lex.not_nil_right _ _
    | cons b bs =>
      simp only [jsStrLtb]
      rcases lt_trichotomy a b with hab | heq | hba
      · simp only [if_pos hab, true_iff]
        exact List.Lex.rel hab
      · subst heq
        simp only [lt_irrefl, if_false, ih]
        constructor
        · exact fun h => List.Lex.cons h
        · intro h
          cases h with
          | cons h => exact h
          | rel h => exact absurd h (lt_irrefl a)
      · have hab : ¬ a < b := lt_asymm hba
        simp only [if_neg hab, if_pos hba, Bool.false_eq_true, false_iff]
        intro h
        cases h with
        | cons h => exact lt_irrefl a hba
        | rel h => exact hab h

theorem jsLt_iff (a b : String) : jsLt a b = true ↔ a < b := by
  rw [String.lt_iff_toList_lt]
  exact jsStrLtb_iff a.data b.data

theorem jsGe_iff (a b : String) : jsGe a b = true ↔ b ≤ a := by
  rw [← not_lt, ← jsLt_iff]
  show (! jsLt a b) = true ↔ ¬ jsLt a b = true
  cases jsLt a b <;> simp

/-- An hours label `open ++ " - " ++ close` always contains a space,
so it can never be the sentinel `"Fechado"`. -/
theorem hoursLabel_ne_fechado (a b : String) : a ++ " - " ++ b ≠ "Fechado" := by
  intro h
  have hmem : (Char.ofNat 32) ∈ (a ++ " - " ++ b).data := by
    simp only [String.data_append]
    refine List.mem_append.mpr (Or.inl (List.mem_append.mpr (Or.inr ?_)))
    decide
  rw [h] at hmem
  exact absurd hmem (by decide)

/-! ### Claims about the Schedule Evaluator -/

/-- C1: for a present schedule entry with `open < close` (lexicographically),
`isRestaurantOpen` answers `true` exactly when the zero-padded `"HH:MM"`
current-time string `t` satisfies `open ≤ t < close`; in particular
`t = open` yields open and `t = close` yields closed. -/
theorem isRestaurantOpen_iff_between (schedule : WeeklySchedule)
    (dayOfWeek h m : Nat) (hours : HoursEntry)
    (hd : schedule dayOfWeek = some hours)
    (hoc : hours.«open» < hours.close) :
    (isRestaurantOpen schedule dayOfWeek h m = true ↔
      hours.«open» ≤ currentTimeString h m ∧ currentTimeString h m < hours.close) ∧
    (currentTimeString h m = hours.«open» →
      isRestaurantOpen schedule dayOfWeek h m = true) ∧
    (currentTimeString h m = hours.close →
      isRestaurantOpen schedule dayOfWeek h m = false) := by
  have hiff : isRestaurantOpen schedule dayOfWeek h m = true ↔
      hours.«open» ≤ currentTimeString h m ∧ currentTimeString h m < hours.close := by
    simp only [isRestaurantOpen, hd, Bool.and_eq_true, jsGe_iff, jsLt_iff]
  refine ⟨hiff, ?_, ?_⟩
  · intro ht
    exact hiff.mpr ⟨ht ▸ le_refl _, ht ▸ hoc⟩
  · intro ht
    cases hb : isRestaurantOpen schedule dayOfWeek h m with
    | false => rfl
    | true =>
      rcases hiff.mp hb with ⟨-, hlt⟩
      rw [ht] at hlt
      exact absurd hlt (lt_irrefl _)

/-- C1 witness: Monday (`1`) with entry `{open: "11:00", close: "23:30"}`:
23:29 is open, 23:30 is closed, 10:59 is closed. -/
theorem isRestaurantOpen_iff_between_witness :
    isRestaurantOpen OPENING_HOURS 1 23 29 = true ∧
    isRestaurantOpen OPENING_HOURS 1 23 30 = false ∧
    isRestaurantOpen OPENING_HOURS 1 10 59 = false := by
  have hoc : ("11:00" : String) < "23:30" := (jsLt_iff "11:00" "23:30").mp rfl
  refine ⟨?_, ?_, ?_⟩
  · exact (isRestaurantOpen_iff_between OPENING_HOURS 1 23 29
      ⟨"11:00", "23:30"⟩ rfl hoc).1.mpr
      ⟨(jsGe_iff (currentTimeString 23 29) "11:00").mp rfl,
       (jsLt_iff (currentTimeString 23 29) "23:30").mp rfl⟩
  · exact (isRestaurantOpen_iff_between OPENING_HOURS 1 23 30
      ⟨"11:00", "23:30"⟩ rfl hoc).2.2 rfl
  · cases hb : isRestaurantOpen OPENING_HOURS 1 10 59 with
    | false => rfl
    | true =>
      rcases (isRestaurantOpen_iff_between OPENING_HOURS 1 10 59
        ⟨"11:00", "23:30"⟩ rfl hoc).1.mp hb with ⟨hle, -⟩
      exact absurd
        (lt_of_lt_of_le ((jsLt_iff (currentTimeString 10 59) "11:00").mp rfl) hle)
        (lt_irrefl _)

/-- C2: for a present schedule entry whose `close` string compares below its
`open` string (a post-midnight closing time), `isRestaurantOpen` answers
`false` at every hour and minute of that weekday: the post-midnight window
is unreachable under lexicographic comparison. -/
theorem isRestaurantOpen_false_of_close_lt_open (schedule : WeeklySchedule)
    (dayOfWeek h m : Nat) (hours : HoursEntry)
    (hd : schedule dayOfWeek = some hours)
    (hco : hours.close < hours.«open») :
    isRestaurantOpen schedule dayOfWeek h m = false := by
  rw [← Bool.not_eq_true]
  simp only [isRestaurantOpen, hd, Bool.and_eq_true, jsGe_iff, jsLt_iff, not_and]
  intro hle hlt
  exact absurd (lt_of_le_of_lt hle (hlt.trans hco)) (lt_irrefl _)

/-- C2 witness: Friday (`5`) has `{open: "11:00", close: "00:30"}`; both
23:00 (inside the intended evening window) and 00:15 (inside the intended
post-midnight window) are reported closed. -/
theorem isRestaurantOpen_false_of_close_lt_open_witness :
    isRestaurantOpen OPENING_HOURS 5 23 0 = false ∧
    isRestaurantOpen OPENING_HOURS 5 0 15 = false := by
  have hco : ("00:30" : String) < "11:00" := (jsLt_iff "00:30" "11:00").mp rfl
  exact ⟨isRestaurantOpen_false_of_close_lt_open OPENING_HOURS 5 23 0
      ⟨"11:00", "00:30"⟩ rfl hco,
    isRestaurantOpen_false_of_close_lt_open OPENING_HOURS 5 0 15
      ⟨"11:00", "00:30"⟩ rfl hco⟩

/-- C5: a weekday with no schedule entry is closed at every hour and minute;
the absent entry is handled (`if (!hours) return false`), not an error. -/
theorem isRestaurantOpen_false_of_absent (schedule : WeeklySchedule)
    (dayOfWeek h m : Nat) (hd : schedule dayOfWeek = none) :
    isRestaurantOpen schedule dayOfWeek h m = false := by
  simp only [isRestaurantOpen, hd]

/-- C5 witness: a schedule with only Monday present reports day 0 closed at
noon, and the source table itself has no entry at index 7. -/
theorem isRestaurantOpen_false_of_absent_witness :
    isRestaurantOpen (fun d => if d = 1 then some ⟨"11:00", "23:30"⟩ else none) 0 12 0 = false ∧
    isRestaurantOpen OPENING_HOURS 7 12 0 = false :=
  ⟨isRestaurantOpen_false_of_absent _ 0 12 0 rfl,
   isRestaurantOpen_false_of_absent OPENING_HOURS 7 12 0 rfl⟩

/-- C4: `getTodayHours` returns `"{open} - {close}"` verbatim from the
entry of the current weekday when present, and the sentinel `"Fechado"`
when that weekday is absent. -/
theorem getTodayHours_spec (schedule : WeeklySchedule) (dayOfWeek : Nat) :
    (∀ hours : HoursEntry, schedule dayOfWeek = some hours →
      getTodayHours schedule dayOfWeek = hours.«open» ++ " - " ++ hours.close) ∧
    (schedule dayOfWeek = none → getTodayHours schedule dayOfWeek = "Fechado") := by
  constructor
  · intro hours hd
    simp only [getTodayHours, hd]
  · intro hd
    simp only [getTodayHours, hd]

/-- C4 witness: Monday of the source table formats as `"11:00 - 23:30"`,
and an all-absent schedule formats as `"Fechado"`. -/
theorem getTodayHours_spec_witness :
    getTodayHours OPENING_HOURS 1 = "11:00 - 23:30" ∧
    getTodayHours (fun _ => none) 0 = "Fechado" :=
  ⟨(getTodayHours_spec OPENING_HOURS 1).1 ⟨"11:00", "23:30"⟩ rfl,
   (getTodayHours_spec (fun _ => none) 0).2 rfl⟩

/-- C10: `getTodayHours` returns `"Fechado"` exactly when the entry of the
weekday is absent, and whenever it does, `isRestaurantOpen` answers `false`
at every hour and minute of that weekday. -/
theorem getTodayHours_fechado_iff (schedule : WeeklySchedule)
    (dayOfWeek h m : Nat) :
    (getTodayHours schedule dayOfWeek = "Fechado" ↔ schedule dayOfWeek = none) ∧
    (getTodayHours schedule dayOfWeek = "Fechado" →
      isRestaurantOpen schedule dayOfWeek h m = false) := by
  have hiff : getTodayHours schedule dayOfWeek = "Fechado" ↔
      schedule dayOfWeek = none := by
    constructor
    · intro hf
      cases hd : schedule dayOfWeek with
      | none => rfl
      | some hours =>
        rw [getTodayHours, hd] at hf
        exact absurd hf (hoursLabel_ne_fechado _ _)
    · intro hd
      simp only [getTodayHours, hd]
  refine ⟨hiff, fun hf => ?_⟩
  simp only [isRestaurantOpen, hiff.mp hf]

/-- C10 witness: on an all-absent schedule the label is `"Fechado"` and the
open check answers `false`. -/
theorem getTodayHours_fechado_iff_witness :
    (fun _ => none : WeeklySchedule) 3 = none ∧
    isRestaurantOpen (fun _ => none) 3 12 0 = false :=
  ⟨(getTodayHours_fechado_iff (fun _ => none) 3 12 0).1.mp rfl,
   (getTodayHours_fechado_iff (fun _ => none) 3 12 0).2 rfl⟩

/-! ### Claims about the Link Builder and Address Formatter -/

/-- C3: the order link for item `"Pizza"` with price label `"39,90"` is
exactly the `wa.me` URL whose query is the percent-encoding of
`"Quero pedir: Pizza (R$ 39,90)"`, and with no price label the
parenthetical is omitted entirely. -/
theorem createWhatsAppLink_pizza (target : String) :
    createWhatsAppLink target "Pizza" (some "39,90") =
      "https://wa.me/" ++ target ++ "?text=Quero%20pedir%3A%20Pizza%20(R%24%2039%2C90)" ∧
    createWhatsAppLink target "Pizza" none =
      "https://wa.me/" ++ target ++ "?text=Quero%20pedir%3A%20Pizza" := by
  constructor <;>
    · simp only [createWhatsAppLink]
      rw [String.append_assoc]
      congr 1

/-- C9: a supplied but empty price label falls into the falsy branch of
`price ? ... : ...`, so it behaves exactly like an absent price: the
message is `"Quero pedir: {product}"` with no parenthetical. -/
theorem createWhatsAppLink_empty_price (target product : String) :
    createWhatsAppLink target product (some "") =
      createWhatsAppLink target product none ∧
    createWhatsAppLink target product (some "") =
      "https://wa.me/" ++ target ++ "?text=" ++
        encodeURIComponent ("Quero pedir: " ++ product) :=
  ⟨rfl, rfl⟩

/-- C7: the delivery-inquiry URL is `"https://wa.me/{target}?text="`
followed by the percent-encoding of
`"Olá! Vocês fazem entrega no meu endereço? {addressLine}"`, where the
address line is `"{street}, {neighborhood}, {city} - {state}"` (no
zipcode) — the same shape and encoding as the order link. -/
theorem openWhatsAppDeliveryUrl_spec (target : String) (addr : Address) :
    openWhatsAppDeliveryUrl target addr =
      "https://wa.me/" ++ target ++ "?text=" ++
        encodeURIComponent ("Olá! Vocês fazem entrega no meu endereço? " ++
          (addr.street ++ ", " ++ addr.neighborhood ++ ", " ++ addr.city ++
            " - " ++ addr.state)) ∧
    getFullAddress addr =
      addr.street ++ ", " ++ addr.neighborhood ++ ", " ++ addr.city ++
        " - " ++ addr.state :=
  ⟨rfl, rfl⟩

/-- C8: `getFormattedAddressLines` returns exactly three lines — street,
`"{neighborhood}, {city} - {state}"`, zipcode — in that fixed order. -/
theorem getFormattedAddressLines_spec (addr : Address) :
    getFormattedAddressLines addr =
      [addr.street,
       addr.neighborhood ++ ", " ++ addr.city ++ " - " ++ addr.state,
       addr.zipcode] ∧
    (getFormattedAddressLines addr).length = 3 :=
  ⟨rfl, rfl⟩

/-! ### Round-trip of percent-encoding -/

theorem char_toNat_lt (c : Char) : c.toNat < 1114112 := by
  rcases c.valid with h | ⟨-, h⟩
  · exact lt_trans h (by norm_num)
  · exact h

theorem hexVal_hexDigitChar : ∀ n : Nat, n < 16 → hexVal (hexDigitChar n) = some n := by
  decide

theorem utf8Bytes_lt_256 (n : Nat) (hn : n < 1114112) :
    ∀ b ∈ utf8Bytes n, b < 256 := by
  intro b hb
  unfold utf8Bytes at hb
  split_ifs at hb with h1 h2 h3 <;>
    simp only [List.mem_cons, List.not_mem_nil, or_false] at hb
  · omega
  · rcases hb with rfl | rfl <;> omega
  · rcases hb with rfl | rfl | rfl <;> omega
  · rcases hb with rfl | rfl | rfl | rfl <;> omega

theorem percentDecodeBytes_encodeByte (b : Nat) (hb : b < 256) (rest : List Char) :
    percentDecodeBytes (percentEncodeByte b ++ rest) =
      (percentDecodeBytes rest).map (fun bs => b :: bs) := by
  show percentDecodeBytes
      (Char.ofNat 37 :: hexDigitChar (b / 16) :: hexDigitChar (b % 16) :: rest) = _
  rw [percentDecodeBytes]
  rw [if_pos (by decide : (Char.ofNat 37).toNat = 37)]
  rw [hexVal_hexDigitChar (b / 16) (by omega), hexVal_hexDigitChar (b % 16) (by omega)]
  have hbb : b / 16 * 16 + b % 16 = b := by omega
  cases hpd : percentDecodeBytes rest <;> simp [hpd, hbb]

theorem percentDecodeBytes_encodeBytes (bs : List Nat) (h : ∀ b ∈ bs, b < 256)
    (rest : List Char) :
    percentDecodeBytes ((bs.map percentEncodeByte).flatten ++ rest) =
      (percentDecodeBytes rest).map (fun l => bs ++ l) := by
  induction bs with
  | nil =>
    cases hpd : percentDecodeBytes rest <;> simp [hpd]
  | cons b bs ih =>
    simp only [List.map_cons, List.flatten_cons, List.append_assoc]
    rw [percentDecodeBytes_encodeByte b (h b (List.mem_cons_self b bs)),
      ih (fun x hx => h x (List.mem_cons_of_mem b hx))]
    cases hpd : percentDecodeBytes rest <;> simp [hpd]

theorem percentDecodeBytes_encodeChar (c : Char) (rest : List Char) :
    percentDecodeBytes (encodeChar c ++ rest) =
      (percentDecodeBytes rest).map (fun l => utf8Bytes c.toNat ++ l) := by
  unfold encodeChar
  by_cases hc : isUnreservedChar c
  · rw [if_pos hc]
    have h37 : ¬ c.toNat = 37 := by
      intro h
      unfold isUnreservedChar at hc
      rw [h] at hc
      simp at hc
    show percentDecodeBytes (c :: rest) = _
    cases rest with
    | nil =>
      conv_lhs => rw [percentDecodeBytes]
      rw [if_neg h37]
    | cons c1 rest1 =>
      cases rest1 with
      | nil =>
        conv_lhs => rw [percentDecodeBytes]
        rw [if_neg h37]
      | cons c2 rest₂ =>
        conv_lhs => rw [percentDecodeBytes]
        rw [if_neg h37]
  · rw [if_neg hc]
    exact percentDecodeBytes_encodeBytes _ (utf8Bytes_lt_256 c.toNat (char_toNat_lt c)) rest

theorem percentDecodeBytes_encode (cs : List Char) :
    percentDecodeBytes ((cs.map encodeChar).flatten) =
      some ((cs.map (fun c => utf8Bytes c.toNat)).flatten) := by
  induction cs with
  | nil => rfl
  | cons c cs ih =>
    simp only [List.map_cons, List.flatten_cons]
    rw [percentDecodeBytes_encodeChar c _, ih]
    rfl

theorem utf8DecodeBytes_utf8Bytes (c : Char) (rest : List Nat) :
    utf8DecodeBytes (utf8Bytes c.toNat ++ rest) =
      (utf8DecodeBytes rest).map (fun cs => c :: cs) := by
  have hv := char_toNat_lt c
  show utf8DecodeAux 0 0 (utf8Bytes c.toNat ++ rest) =
    (utf8DecodeAux 0 0 rest).map (fun cs => c :: cs)
  unfold utf8Bytes
  split_ifs with h1 h2 h3
  · show utf8DecodeAux 0 0 (c.toNat :: rest) = _
    rw [utf8DecodeAux, if_pos h1, Char.ofNat_toNat]
  · show utf8DecodeAux 0 0
        ((0xC0 + c.toNat / 0x40) :: (0x80 + c.toNat % 0x40) :: rest) = _
    rw [utf8DecodeAux, if_neg (by omega), if_neg (by omega), if_pos (by omega)]
    rw [utf8DecodeAux, if_pos (by omega)]
    have hval : (0xC0 + c.toNat / 0x40 - 0xC0) * 0x40 + (0x80 + c.toNat % 0x40 - 0x80)
        = c.toNat := by omega
    rw [hval, Char.ofNat_toNat]
  · show utf8DecodeAux 0 0
        ((0xE0 + c.toNat / 0x1000) :: (0x80 + c.toNat / 0x40 % 0x40) ::
          (0x80 + c.toNat % 0x40) :: rest) = _
    rw [utf8DecodeAux, if_neg (by omega), if_neg (by omega), if_neg (by omega),
      if_pos (by omega)]
    rw [show (2 : Nat) = 0 + 2 from rfl, utf8DecodeAux, if_pos (by omega)]
    rw [show (0 : Nat) + 1 = 1 from rfl, utf8DecodeAux, if_pos (by omega)]
    have hval : ((0xE0 + c.toNat / 0x1000 - 0xE0) * 0x40 +
        (0x80 + c.toNat / 0x40 % 0x40 - 0x80)) * 0x40 +
        (0x80 + c.toNat % 0x40 - 0x80) = c.toNat := by omega
    rw [hval, Char.ofNat_toNat]
  · show utf8DecodeAux 0 0
        ((0xF0 + c.toNat / 0x40000) :: (0x80 + c.toNat / 0x1000 % 0x40) ::
          (0x80 + c.toNat / 0x40 % 0x40) :: (0x80 + c.toNat % 0x40) :: rest) = _
    rw [utf8DecodeAux, if_neg (by omega), if_neg (by omega), if_neg (by omega),
      if_neg (by omega)]
    rw [show (3 : Nat) = 1 + 2 from rfl, utf8DecodeAux, if_pos (by omega)]
    rw [show (1 : Nat) + 1 = 0 + 2 from rfl, utf8DecodeAux, if_pos (by omega)]
    rw [show (0 : Nat) + 1 = 1 from rfl, utf8DecodeAux, if_pos (by omega)]
    have hval : (((0xF0 + c.toNat / 0x40000 - 0xF0) * 0x40 +
        (0x80 + c.toNat / 0x1000 % 0x40 - 0x80)) * 0x40 +
        (0x80 + c.toNat / 0x40 % 0x40 - 0x80)) * 0x40 +
        (0x80 + c.toNat % 0x40 - 0x80) = c.toNat := by omega
    rw [hval, Char.ofNat_toNat]

theorem utf8DecodeBytes_encode (cs : List Char) :
    utf8DecodeBytes ((cs.map (fun c => utf8Bytes c.toNat)).flatten) = some cs := by
  induction cs with
  | nil => rfl
  | cons c cs ih =>
    simp only [List.map_cons, List.flatten_cons]
    rw [utf8DecodeBytes_utf8Bytes c _, ih]
    rfl

theorem percentDecode_encodeURIComponent (s : String) :
    percentDecode (encodeURIComponent s) = some s := by
  unfold percentDecode encodeURIComponent
  rw [show (String.mk ((s.data.map encodeChar).flatten)).data
      = (s.data.map encodeChar).flatten from rfl]
  rw [percentDecodeBytes_encode]
  show (match utf8DecodeBytes ((s.data.map (fun c => utf8Bytes c.toNat)).flatten) with
    | some cs => some (String.mk cs)
    | none => none) = some s
  rw [utf8DecodeBytes_encode]

/-- C6: `getGoogleMapsUrl` is the fixed search prefix followed by the
percent-encoding of the single-line address, and percent-decoding that
path segment reproduces `getFullAddress addr` exactly. -/
theorem getGoogleMapsUrl_roundtrip (addr : Address) :
    getGoogleMapsUrl addr =
      "https://www.google.com/maps/search/" ++
        encodeURIComponent (getFullAddress addr) ∧
    percentDecode (encodeURIComponent (getFullAddress addr)) =
      some (getFullAddress addr) :=
  ⟨rfl, percentDecode_encodeURIComponent (getFullAddress addr)⟩

end Delivery
